import Mathlib

/-!
Verification development for the urban-transport analytics platform.

The embedding models the three source programs:
* the ingestion pipeline (data-generator/generate.py): trip synthesis, derived
  fields, batched bulk writes to the Record Store (MongoDB) and per-trip
  counter increments into the Counter Store (Cassandra);
* the batch aggregator (spark-jobs/analytics.py): the five group-by
  aggregates and the JSON artifact rows they emit;
* the query API (api/main.py): per-endpoint resolution between the Spark
  artifact and a live MongoDB aggregation fallback.

Modelling conventions: machine floats are modelled as rationals; timestamps
as absolute minutes (an `Int`); the calendar-day string `%Y-%m-%d` as the day
index of the timestamp (its formatting is excluded I/O mechanics); JSON rows
as ordered association lists of (field name, value).  Group-by produces
groups in first-occurrence order of keys (a deterministic refinement of the
unspecified Spark/Mongo group order); sorts are stable insertion sorts.
Artifact files are modelled by `FileState`: absent, readable with parsed
content, or corrupt (meaning `json.load` raises, since `load_spark_result`
only checks existence before parsing).  Python truthiness of the loaded
artifact (`if spark_data:`) and of the query parameter (`if city:`) is
modelled explicitly: an empty list and an empty string are falsy.
-/

namespace UTP

/-- A trip record as built by generate.py and stored in MongoDB.
`date` is the calendar-day index (the source formats it as "%Y-%m-%d"),
`timestamp` is in absolute minutes. -/
structure Trip where
  trip_id : String
  user_id : String
  city : String
  zone_start : String
  zone_end : String
  distance_km : ℚ
  price_eur : ℚ
  timestamp : Int
  hour : Int
  day_of_week : String
  date : Int
deriving DecidableEq

/-- A JSON scalar appearing in artifact / endpoint rows. -/
inductive Value where
  | s : String → Value
  | i : Int → Value
  | q : ℚ → Value
deriving DecidableEq

/-- A JSON object row: ordered association list of field name / value. -/
abbrev Row := List (String × Value)

/-- Field names of a row, in order. -/
def rowKeys (r : Row) : List String := r.map Prod.fst

/-- Look up a field of a row. -/
def rowLookup (k : String) (r : Row) : Option Value :=
  (r.find? (fun p => p.1 == k)).map Prod.snd

/-- The trip_count field of a row (0 if missing or not an integer). -/
def rowCountVal (r : Row) : Int :=
  match rowLookup "trip_count" r with
  | some (Value.i n) => n
  | _ => 0

/-- The zone field of a row ("" if missing or not a string). -/
def rowZoneVal (r : Row) : String :=
  match rowLookup "zone" r with
  | some (Value.s z) => z
  | _ => ""

/-- The city field of a row ("" if missing or not a string). -/
def rowCityVal (r : Row) : String :=
  match rowLookup "city" r with
  | some (Value.s c) => c
  | _ => ""

/-- First-occurrence deduplication: the distinct values of a list in the
order they first appear.  This is the group-key order of the embedding. -/
def dedupFO {κ : Type} [DecidableEq κ] : List κ → List κ
  | [] => []
  | k :: ks => k :: (dedupFO ks).filter (fun x => decide (x ≠ k))

/-- The distinct group keys of a list under a key function, in
first-occurrence order. -/
def distinctKeys {α κ : Type} [DecidableEq κ] (f : α → κ) (l : List α) : List κ :=
  dedupFO (l.map f)

/-- Number of elements of a list having a given key. -/
def keyCount {α κ : Type} [DecidableEq κ] (f : α → κ) (l : List α) (k : κ) : Nat :=
  (l.filter (fun a => decide (f a = k))).length

/-- Group-by with counting: one (key, count) pair per distinct key. -/
def groupCounts {α κ : Type} [DecidableEq κ] (f : α → κ) (l : List α) : List (κ × Nat) :=
  (distinctKeys f l).map (fun k => (k, keyCount f l k))

/-- Ascending order on the first (Int) component; used for the date and hour
sorts (orderBy "date" / orderBy "hour" / Mongo sort by _id ascending). -/
def fstLe (a b : Int × Nat) : Prop := a.1 ≤ b.1

instance : DecidableRel fstLe := fun a b => inferInstanceAs (Decidable (a.1 ≤ b.1))

/-- Descending order on counts for (zone, count) pairs
(orderBy "trip_count" descending / Mongo sort trip_count -1). -/
def countDescZ (a b : String × Nat) : Prop := b.2 ≤ a.2

instance : DecidableRel countDescZ := fun a b => inferInstanceAs (Decidable (b.2 ≤ a.2))

/-- Descending order on the rounded average for (city, avg, count) triples
(analytics.py: orderBy "avg_distance" descending). -/
def avgDesc (a b : String × ℚ × Nat) : Prop := b.2.1 ≤ a.2.1

instance : DecidableRel avgDesc := fun a b => inferInstanceAs (Decidable (b.2.1 ≤ a.2.1))

/-- Descending order on counts for (city, avg, count) triples
(main.py cities fallback: Mongo sort trip_count -1). -/
def countDescQ (a b : String × ℚ × Nat) : Prop := b.2.2 ≤ a.2.2

instance : DecidableRel countDescQ := fun a b => inferInstanceAs (Decidable (b.2.2 ≤ a.2.2))

/-- Lexicographic strict order on character lists, by code point. -/
def charListLt : List Char → List Char → Bool
  | _, [] => false
  | [], _ :: _ => true
  | c :: cs, d :: ds =>
    if c < d then true
    else if d < c then false
    else charListLt cs ds

/-- Lexicographic strict order on strings (the order the stores use when
sorting string columns). -/
def strLt (a b : String) : Bool := charListLt a.data b.data

/-- Lexicographic non-strict order on strings. -/
def strLe (a b : String) : Bool := !(strLt b a)

/-- Sort order of analytics.py by_day: orderBy("city", "trip_count",
ascending=False) — PySpark applies ascending=False to BOTH columns, so this
is city descending, then count descending. -/
def cityDayDesc (a b : (String × String) × Nat) : Prop :=
  strLt b.1.1 a.1.1 = true ∨ (a.1.1 = b.1.1 ∧ b.2 ≤ a.2)

instance : DecidableRel cityDayDesc :=
  fun a b => inferInstanceAs (Decidable (strLt b.1.1 a.1.1 = true ∨ (a.1.1 = b.1.1 ∧ b.2 ≤ a.2)))

/-- Spark round(·, 2): HALF_UP rounding (half away from zero) to 2 decimals. -/
def sparkRound2 (q : ℚ) : ℚ :=
  if q < 0 then -(((⌊(-q) * 100 + 1 / 2⌋ : Int) : ℚ) / 100)
  else ((⌊q * 100 + 1 / 2⌋ : Int) : ℚ) / 100

/-- Mongo $round [·, 2]: round-half-to-even to 2 decimals. -/
def mongoRound2 (q : ℚ) : ℚ :=
  let n : Int := ⌊q * 100⌋
  let frac : ℚ := q * 100 - (n : ℚ)
  if frac < 1 / 2 then (n : ℚ) / 100
  else if 1 / 2 < frac then ((n + 1 : Int) : ℚ) / 100
  else if n % 2 = 0 then (n : ℚ) / 100
  else ((n + 1 : Int) : ℚ) / 100

/-- Mean of distance_km over the trips of one city. -/
def meanDist (db : List Trip) (c : String) : ℚ :=
  ((db.filter (fun t => decide (t.city = c))).map Trip.distance_km).sum /
    (((db.filter (fun t => decide (t.city = c))).length : ℚ))

/-- Row serializer for the daily aggregate: {"date": …, "trip_count": …}. -/
def dailyRow (p : Int × Nat) : Row := [("date", Value.i p.1), ("trip_count", Value.i p.2)]

/-- Row serializer for the hourly aggregate: {"hour": …, "trip_count": …}. -/
def rushRow (p : Int × Nat) : Row := [("hour", Value.i p.1), ("trip_count", Value.i p.2)]

/-- Row serializer for the cities aggregate:
{"city": …, "avg_distance": …, "trip_count": …}. -/
def cityRow (p : String × ℚ × Nat) : Row :=
  [("city", Value.s p.1), ("avg_distance", Value.q p.2.1), ("trip_count", Value.i p.2.2)]

/-- Row serializer for the top-zones aggregate: {"zone": …, "trip_count": …}. -/
def zoneRow (p : String × Nat) : Row := [("zone", Value.s p.1), ("trip_count", Value.i p.2)]

/-- Row serializer for the weekday aggregate:
{"city": …, "day_of_week": …, "trip_count": …}. -/
def dayRow (p : (String × String) × Nat) : Row :=
  [("city", Value.s p.1.1), ("day_of_week", Value.s p.1.2), ("trip_count", Value.i p.2)]

/-- Key function for the weekday aggregate: group by (city, day_of_week). -/
def byDayKey (t : Trip) : String × String := (t.city, t.day_of_week)

/-!
Batch Aggregator — spark-jobs/analytics.py.  Each aggregate is a group-by
with count (plus mean distance for cities), followed by the orderBy of the
source, then serialized to the JSON rows the script dumps into its artifact.
-/

/-- Analysis 1: df.groupBy("date").agg(count).orderBy("date"). -/
def analytics_daily (db : List Trip) : List (Int × Nat) :=
  List.insertionSort fstLe (groupCounts Trip.date db)

/-- The rows of the daily.json artifact. -/
def daily_list (db : List Trip) : List Row := (analytics_daily db).map dailyRow

/-- One (city, avg_distance, trip_count) triple as analytics.py computes it. -/
def sparkCityRow (db : List Trip) (c : String) : String × ℚ × Nat :=
  (c, sparkRound2 (meanDist db c), keyCount Trip.city db c)

/-- Analysis 2: df.groupBy("city").agg(round(avg(distance_km), 2), count)
.orderBy("avg_distance", ascending=False). -/
def analytics_avg_dist (db : List Trip) : List (String × ℚ × Nat) :=
  List.insertionSort avgDesc ((distinctKeys Trip.city db).map (sparkCityRow db))

/-- The rows of the avg_distance.json artifact. -/
def avg_list (db : List Trip) : List Row := (analytics_avg_dist db).map cityRow

/-- Analysis 3: df.groupBy("hour").agg(count).orderBy("hour"). -/
def analytics_rush (db : List Trip) : List (Int × Nat) :=
  List.insertionSort fstLe (groupCounts Trip.hour db)

/-- The rows of the rush_hours.json artifact. -/
def rush_list (db : List Trip) : List Row := (analytics_rush db).map rushRow

/-- Analysis 4: df.groupBy("zone_start").agg(count)
.orderBy("trip_count", ascending=False) — full ranking, no truncation. -/
def analytics_top_zones (db : List Trip) : List (String × Nat) :=
  List.insertionSort countDescZ (groupCounts Trip.zone_start db)

/-- The rows of the top_zones.json artifact. -/
def zones_list (db : List Trip) : List Row := (analytics_top_zones db).map zoneRow

/-- Analysis 5: df.groupBy("city", "day_of_week").agg(count)
.orderBy("city", "trip_count", ascending=False) — both keys descending. -/
def analytics_by_day (db : List Trip) : List ((String × String) × Nat) :=
  List.insertionSort cityDayDesc (groupCounts byDayKey db)

/-- The rows of the by_day_of_week.json artifact. -/
def day_list (db : List Trip) : List Row := (analytics_by_day db).map dayRow

/-!
Query API — api/main.py.  Each endpoint loads the Spark artifact file and
either returns it or falls back to a live MongoDB aggregation pipeline.
-/

/-- API-level failures: a corrupt artifact makes json.load raise (there is no
try/except in load_spark_result); Mongo rejects a non-positive $limit. -/
inductive ApiError where
  | artifactCorrupt
  | mongoBadLimit
deriving DecidableEq

/-- State of an artifact file on disk: missing, readable with parsed JSON
content, or present but malformed (json.load raises). -/
inductive FileState (α : Type) where
  | absent
  | readable (data : α)
  | corrupt

/-- load_spark_result: returns None when the file does not exist, the parsed
content when it is readable, and raises (propagates an error) when json.load
fails on a malformed file. -/
def load_spark_result {α : Type} : FileState α → Except ApiError (Option α)
  | FileState.absent => Except.ok none
  | FileState.readable d => Except.ok (some d)
  | FileState.corrupt => Except.error ApiError.artifactCorrupt

/-- Python truthiness of the optional city query parameter: None and "" are
falsy (the endpoints test `if city:`). -/
def cityTruthy : Option String → Bool
  | none => false
  | some c => decide (c ≠ "")

/-- The $match stage on city, present exactly when the city parameter is
truthy (the pipelines are built under `if city:`). -/
def cityFilter (city : Option String) (db : List Trip) : List Trip :=
  match city with
  | none => db
  | some c => if c = "" then db else db.filter (fun t => decide (t.city = c))

/-- Live daily pipeline: optional $match city, $group by date with count,
$sort by _id (= date) ascending, $project {date, trip_count}. -/
def liveDailyAgg (db : List Trip) (city : Option String) : List (Int × Nat) :=
  List.insertionSort fstLe (groupCounts Trip.date (cityFilter city db))

/-- Serialized rows of the live daily pipeline. -/
def liveDailyRows (db : List Trip) (city : Option String) : List Row :=
  (liveDailyAgg db city).map dailyRow

/-- Live hourly pipeline: optional $match city, $group by hour with count,
$sort by _id (= hour) ascending, $project {hour, trip_count}. -/
def liveHourlyAgg (db : List Trip) (city : Option String) : List (Int × Nat) :=
  List.insertionSort fstLe (groupCounts Trip.hour (cityFilter city db))

/-- Serialized rows of the live hourly pipeline. -/
def liveHourlyRows (db : List Trip) (city : Option String) : List Row :=
  (liveHourlyAgg db city).map rushRow

/-- One (city, avg_distance, trip_count) triple of the live cities pipeline
($avg then $round [·, 2]). -/
def mongoCityRow (db : List Trip) (c : String) : String × ℚ × Nat :=
  (c, mongoRound2 (meanDist db c), keyCount Trip.city db c)

/-- Live cities pipeline: $group by city with $avg distance_km and count,
$sort trip_count descending, $project with $round to 2 decimals. -/
def liveCitiesAgg (db : List Trip) : List (String × ℚ × Nat) :=
  List.insertionSort countDescQ ((distinctKeys Trip.city db).map (mongoCityRow db))

/-- Serialized rows of the live cities pipeline. -/
def liveCitiesRows (db : List Trip) : List Row := (liveCitiesAgg db).map cityRow

/-- Mongo $limit stage: takes a positive integer, errors otherwise. -/
def mongoLimit {α : Type} (n : Int) (l : List α) : Except ApiError (List α) :=
  if 0 < n then Except.ok (l.take n.toNat) else Except.error ApiError.mongoBadLimit

/-- The sorted zone ranking of the live top-zones pipeline, before $limit. -/
def liveTopZonesSorted (db : List Trip) : List (String × Nat) :=
  List.insertionSort countDescZ (groupCounts Trip.zone_start db)

/-- Live top-zones pipeline: $group by zone_start with count, $sort
trip_count descending, $limit limit, $project {zone, trip_count}. -/
def liveTopZonesRows (db : List Trip) (limit : Int) : Except ApiError (List Row) :=
  (mongoLimit limit (liveTopZonesSorted db)).map (fun l => l.map zoneRow)

/-- Live weekday pipeline: $group by (city, day_of_week) with count, then
$project — the pipeline has NO $sort stage. -/
def liveWeekdayAgg (db : List Trip) : List ((String × String) × Nat) :=
  groupCounts byDayKey db

/-- Serialized rows of the live weekday pipeline. -/
def liveWeekdayRows (db : List Trip) : List Row := (liveWeekdayAgg db).map dayRow

/-- Python slice spark_data[:limit]: a non-negative limit takes that many
rows from the front; a negative limit drops that many rows from the back. -/
def pySlice {α : Type} (l : List α) (n : Int) : List α :=
  if 0 ≤ n then l.take n.toNat else l.take (l.length - (-n).toNat)

/-- GET /stats/daily: artifact-first with a live-filtered branch when the
city parameter is truthy, and a live fallback when the artifact is absent or
falsy (empty). -/
def daily_stats (db : List Trip) (art : FileState (List Row)) (city : Option String) :
    Except ApiError (List Row) :=
  match load_spark_result art with
  | Except.error e => Except.error e
  | Except.ok (some rows) =>
    if rows.isEmpty then Except.ok (liveDailyRows db city)
    else if cityTruthy city then Except.ok (liveDailyRows db city)
    else Except.ok rows
  | Except.ok none => Except.ok (liveDailyRows db city)

/-- GET /stats/hourly: returns the artifact only when it is truthy and no
truthy city filter is supplied, otherwise computes live. -/
def hourly_stats (db : List Trip) (art : FileState (List Row)) (city : Option String) :
    Except ApiError (List Row) :=
  match load_spark_result art with
  | Except.error e => Except.error e
  | Except.ok (some rows) =>
    if !rows.isEmpty && !cityTruthy city then Except.ok rows
    else Except.ok (liveHourlyRows db city)
  | Except.ok none => Except.ok (liveHourlyRows db city)

/-- GET /stats/cities: truthy artifact verbatim, else live pipeline. -/
def cities_stats (db : List Trip) (art : FileState (List Row)) :
    Except ApiError (List Row) :=
  match load_spark_result art with
  | Except.error e => Except.error e
  | Except.ok (some rows) =>
    if rows.isEmpty then Except.ok (liveCitiesRows db) else Except.ok rows
  | Except.ok none => Except.ok (liveCitiesRows db)

/-- GET /top-zones: truthy artifact sliced to limit (Python slice), else the
live pipeline with Mongo $limit. -/
def top_zones (db : List Trip) (art : FileState (List Row)) (limit : Int) :
    Except ApiError (List Row) :=
  match load_spark_result art with
  | Except.error e => Except.error e
  | Except.ok (some rows) =>
    if rows.isEmpty then liveTopZonesRows db limit
    else Except.ok (pySlice rows limit)
  | Except.ok none => liveTopZonesRows db limit

/-- GET /stats/weekday: truthy artifact verbatim, else the (unsorted) live
pipeline. -/
def weekday_stats (db : List Trip) (art : FileState (List Row)) :
    Except ApiError (List Row) :=
  match load_spark_result art with
  | Except.error e => Except.error e
  | Except.ok (some rows) =>
    if rows.isEmpty then Except.ok (liveWeekdayRows db) else Except.ok rows
  | Except.ok none => Except.ok (liveWeekdayRows db)

/-!
Ingestion Pipeline — data-generator/generate.py.  Timestamps are absolute
minutes; the derived fields are computed from the trip's own timestamp at
write time.  Trips accumulate in a batch flushed to MongoDB when it reaches
BATCH_SIZE, with the remainder flushed after the loop; independently every
trip issues two Cassandra counter increments.
-/

/-- Local hour of a timestamp in minutes (datetime .hour). -/
def localHour (t : Int) : Int := (t.fdiv 60).emod 24

/-- Calendar-day index of a timestamp in minutes (the "%Y-%m-%d" string of
the source is modelled by this day index). -/
def calendarDay (t : Int) : Int := t.fdiv 1440

/-- Weekday names, indexed from the epoch day (a Thursday). -/
def weekNames : List String :=
  ["Thursday", "Friday", "Saturday", "Sunday", "Monday", "Tuesday", "Wednesday"]

/-- Weekday name of a timestamp in minutes (strftime "%A"). -/
def weekdayName (t : Int) : String := weekNames.getD ((calendarDay t).emod 7).toNat ""

/-- The random draws and attributes of one generated trip: the loop draws a
days/hours/minutes offset backwards from now, a city, two zones, a distance
and a price, plus fresh identifiers. -/
structure GenEvent where
  daysAgo : Nat
  hoursAgo : Nat
  minutesAgo : Nat
  city : String
  zone_start : String
  zone_end : String
  distance_km : ℚ
  price_eur : ℚ
  trip_id : String
  user_id : String
deriving DecidableEq

/-- Build the MongoDB trip document: ts = now - timedelta(days, hours,
minutes); hour, day_of_week and date are all computed from this same ts. -/
def mkTrip (now : Int) (e : GenEvent) : Trip :=
  let ts : Int := now - ((e.daysAgo : Int) * 1440 + (e.hoursAgo : Int) * 60 + (e.minutesAgo : Int))
  { trip_id := e.trip_id, user_id := e.user_id, city := e.city,
    zone_start := e.zone_start, zone_end := e.zone_end,
    distance_km := e.distance_km, price_eur := e.price_eur,
    timestamp := ts, hour := localHour ts, day_of_week := weekdayName ts,
    date := calendarDay ts }

/-- The trips generated by a run: one per generation event. -/
def genTrips (now : Int) (events : List GenEvent) : List Trip :=
  events.map (mkTrip now)

/-- The batched bulk writes: the batch is flushed as one insert_many when its
length reaches B, and any nonempty remainder is flushed after the loop. -/
def batches (B : Nat) (buf : List Trip) : List Trip → List (List Trip)
  | [] => if buf.isEmpty then [] else [buf]
  | t :: ts =>
    let buf2 := buf ++ [t]
    if buf2.length = B then buf2 :: batches B [] ts
    else batches B buf2 ts

/-- The Record Store content after a run: the concatenation of all flushed
batches (the collection was dropped first). -/
def recordStore (B : Nat) (trips : List Trip) : List Trip :=
  (batches B [] trips).flatten

/-- One Cassandra counter increment: UPDATE … SET trip_count = trip_count + 1
on trips_by_hour (city, date, hour) or on trips_by_zone (city, zone). -/
inductive CounterOp where
  | hourOp (city : String) (date : Int) (hour : Int)
  | zoneOp (city : String) (zone : String)
deriving DecidableEq

/-- Whether an op targets the trips_by_zone table. -/
def CounterOp.isZone : CounterOp → Bool
  | zoneOp _ _ => true
  | _ => false

/-- Whether an op targets the trips_by_hour table. -/
def CounterOp.isHour : CounterOp → Bool
  | hourOp _ _ _ => true
  | _ => false

/-- The increment stream of a run: for every single trip, in loop order, one
increment on (city, date, hour) and one on (city, zone_start). -/
def counterOps : List Trip → List CounterOp
  | [] => []
  | t :: ts =>
    CounterOp.hourOp t.city t.date t.hour :: CounterOp.zoneOp t.city t.zone_start :: counterOps ts

/-- The two Cassandra counter tables. -/
structure CounterState where
  trips_by_hour : String × Int × Int → Nat
  trips_by_zone : String × String → Nat

/-- Counter state after TRUNCATE: every bucket is 0. -/
def emptyCounters : CounterState := ⟨fun _ => 0, fun _ => 0⟩

/-- Apply one atomic increment to the counter state. -/
def applyOp (st : CounterState) : CounterOp → CounterState
  | CounterOp.hourOp c d h =>
    { st with trips_by_hour := fun k =>
        if k = (c, d, h) then st.trips_by_hour k + 1 else st.trips_by_hour k }
  | CounterOp.zoneOp c z =>
    { st with trips_by_zone := fun k =>
        if k = (c, z) then st.trips_by_zone k + 1 else st.trips_by_zone k }

/-- Replay a stream of increments. -/
def runOps (st : CounterState) (ops : List CounterOp) : CounterState :=
  ops.foldl applyOp st

/-- Whether an op is the zone increment of bucket (c, z). -/
def zoneHit (c z : String) : CounterOp → Bool
  | CounterOp.zoneOp c2 z2 => decide (c2 = c ∧ z2 = z)
  | _ => false

/-!
Concrete trips and rows used by witnesses and counterexamples.
-/

/-- A concrete trip with the given city, start zone, weekday and distance. -/
def sampleTrip (c z day : String) (d : ℚ) : Trip :=
  { trip_id := "t", user_id := "u", city := c, zone_start := z, zone_end := z,
    distance_km := d, price_eur := 1, timestamp := 0, hour := 0,
    day_of_week := day, date := 0 }

/-- Record set for the cities counterexample: city A has one long trip, city
B has two short ones, so avg-distance order and trip-count order disagree. -/
def c3db : List Trip :=
  [sampleTrip "A" "Z" "Monday" 10, sampleTrip "B" "Z" "Monday" 1, sampleTrip "B" "Z" "Monday" 1]

/-- Record set for the weekday counterexample: two cities A and B. -/
def c4db : List Trip := [sampleTrip "A" "Z" "Monday" 1, sampleTrip "B" "Z" "Monday" 1]

/-- Record set for the top-zones counterexample: two zones with equal counts,
Zone B occurring first. -/
def c6db : List Trip :=
  [sampleTrip "Paris" "Zone B" "Monday" 1, sampleTrip "Paris" "Zone A" "Monday" 1]

/-- Three concrete trips for the ingestion round-trip witness. -/
def c7trips : List Trip :=
  [sampleTrip "Paris" "Zone A" "Monday" 1, sampleTrip "Lyon" "Zone B" "Tuesday" 2,
   sampleTrip "Paris" "Zone A" "Monday" 3]

/-- Two concrete trips in the same city and start zone, for the counter
witness. -/
def c9trips : List Trip :=
  [sampleTrip "Paris" "Zone A" "Monday" 1, sampleTrip "Paris" "Zone A" "Tuesday" 2]

/-- A concrete generation event for the derived-fields witness. -/
def c8event : GenEvent :=
  { daysAgo := 1, hoursAgo := 2, minutesAgo := 3, city := "Paris",
    zone_start := "Zone A", zone_end := "Zone B", distance_km := 5,
    price_eur := 2, trip_id := "a", user_id := "b" }

/-- A five-row artifact for the negative-limit slice demonstration. -/
def c10rows : List Row := List.replicate 5 [("zone", Value.s "Z"), ("trip_count", Value.i 1)]

/-- A concrete nonempty artifact row. -/
def c1row : Row := [("date", Value.i 0), ("trip_count", Value.i 1)]

/-!
Orders stated by the spec claims, on serialized rows.
-/

/-- Descending trip_count on rows. -/
def rowCountGe (r r2 : Row) : Prop := rowCountVal r2 ≤ rowCountVal r

instance : DecidableRel rowCountGe :=
  fun r r2 => inferInstanceAs (Decidable (rowCountVal r2 ≤ rowCountVal r))

/-- Descending trip_count with ties broken ascending by zone name, as the
top-zones claim states. -/
def rowTieOrder (r r2 : Row) : Prop :=
  rowCountVal r2 < rowCountVal r ∨
    (rowCountVal r = rowCountVal r2 ∧ strLe (rowZoneVal r) (rowZoneVal r2) = true)

instance : DecidableRel rowTieOrder :=
  fun r r2 => inferInstanceAs
    (Decidable (rowCountVal r2 < rowCountVal r ∨
      (rowCountVal r = rowCountVal r2 ∧ strLe (rowZoneVal r) (rowZoneVal r2) = true)))

/-- City ascending then trip_count descending, as the weekday claim states. -/
def rowCityAsc (r r2 : Row) : Prop :=
  strLt (rowCityVal r) (rowCityVal r2) = true ∨
    (rowCityVal r = rowCityVal r2 ∧ rowCountVal r2 ≤ rowCountVal r)

instance : DecidableRel rowCityAsc :=
  fun r r2 => inferInstanceAs
    (Decidable (strLt (rowCityVal r) (rowCityVal r2) = true ∨
      (rowCityVal r = rowCityVal r2 ∧ rowCountVal r2 ≤ rowCountVal r)))

/-!
Helper lemmas.
-/

/-- Lexicographic order on character lists is transitive. -/
theorem charListLt_trans : ∀ x y z : List Char,
    charListLt x y = true → charListLt y z = true → charListLt x z = true := by
  intro x
  induction x with
  | nil =>
    intro y z hxy hyz
    cases z with
    | nil => cases y <;> simp [charListLt] at hxy hyz
    | cons d ds => simp [charListLt]
  | cons c cs ih =>
    intro y z hxy hyz
    cases y with
    | nil => simp [charListLt] at hxy
    | cons e es =>
      cases z with
      | nil => simp [charListLt] at hyz
      | cons d ds =>
        simp only [charListLt] at hxy hyz ⊢
        by_cases h1 : c < e
        · by_cases h2 : e < d
          · simp [lt_trans h1 h2]
          · by_cases h3 : d < e
            · simp [h2, h3] at hyz
            · have hed : e = d := le_antisymm (not_lt.mp h3) (not_lt.mp h2)
              subst hed
              simp [h1]
        · by_cases h1b : e < c
          · simp [h1, h1b] at hxy
          · have hce : c = e := le_antisymm (not_lt.mp h1b) (not_lt.mp h1)
            subst hce
            simp [lt_irrefl] at hxy
            by_cases h2 : c < d
            · simp [h2]
            · by_cases h3 : d < c
              · simp [h2, h3] at hyz
              · have hcd : c = d := le_antisymm (not_lt.mp h3) (not_lt.mp h2)
                subst hcd
                simp [lt_irrefl] at hyz ⊢
                exact ih es ds hxy hyz

/-- Character lists that are each not below the other are equal. -/
theorem charListLt_conn : ∀ x y : List Char,
    charListLt x y = false → charListLt y x = false → x = y := by
  intro x
  induction x with
  | nil =>
    intro y hxy _
    cases y with
    | nil => rfl
    | cons d ds => simp [charListLt] at hxy
  | cons c cs ih =>
    intro y hxy hyx
    cases y with
    | nil => simp [charListLt] at hyx
    | cons d ds =>
      simp only [charListLt] at hxy hyx
      by_cases h1 : c < d
      · simp [h1] at hxy
      · by_cases h2 : d < c
        · simp [h2] at hyx
        · have hcd : c = d := le_antisymm (not_lt.mp h2) (not_lt.mp h1)
          subst hcd
          simp [lt_irrefl] at hxy hyx
          rw [ih ds hxy hyx]

/-- strLt is transitive. -/
theorem strLt_trans {a b c : String} (h1 : strLt a b = true) (h2 : strLt b c = true) :
    strLt a c = true :=
  charListLt_trans _ _ _ h1 h2

/-- Strings that are each not strictly below the other are equal. -/
theorem strLt_conn {a b : String} (h1 : strLt a b = false) (h2 : strLt b a = false) :
    a = b :=
  String.ext (charListLt_conn _ _ h1 h2)

/-- The by_day sort order is total. -/
theorem cityDayDesc_total : ∀ a b, cityDayDesc a b ∨ cityDayDesc b a := by
  intro a b
  cases h1 : strLt b.1.1 a.1.1
  · cases h2 : strLt a.1.1 b.1.1
    · have he := strLt_conn h2 h1
      rcases Nat.le_total b.2 a.2 with h | h
      · exact Or.inl (Or.inr ⟨he, h⟩)
      · exact Or.inr (Or.inr ⟨he.symm, h⟩)
    · exact Or.inr (Or.inl h2)
  · exact Or.inl (Or.inl h1)

/-- The by_day sort order is transitive. -/
theorem cityDayDesc_trans : ∀ a b c, cityDayDesc a b → cityDayDesc b c → cityDayDesc a c := by
  intro a b c hab hbc
  rcases hab with h1 | ⟨e1, n1⟩
  · rcases hbc with h2 | ⟨e2, n2⟩
    · exact Or.inl (strLt_trans h2 h1)
    · refine Or.inl ?_
      rw [← e2]
      exact h1
  · rcases hbc with h2 | ⟨e2, n2⟩
    · refine Or.inl ?_
      rw [e1]
      exact h2
    · exact Or.inr ⟨e1.trans e2, Nat.le_trans n2 n1⟩

/-- Mapping a constant yields a replicate. -/
theorem map_const_replicate {α β : Type} (l : List α) (b : β) :
    l.map (fun _ => b) = List.replicate l.length b := by
  induction l with
  | nil => rfl
  | cons a t ih => simp [List.replicate, ih]

/-- Membership in first-occurrence dedup is membership. -/
theorem mem_dedupFO {κ : Type} [DecidableEq κ] (l : List κ) (k : κ) :
    k ∈ dedupFO l ↔ k ∈ l := by
  induction l with
  | nil => simp [dedupFO]
  | cons k0 ks ih =>
    simp only [dedupFO, List.mem_cons, List.mem_filter]
    constructor
    · rintro (rfl | ⟨hk, _⟩)
      · exact Or.inl rfl
      · exact Or.inr (ih.mp hk)
    · rintro (rfl | hk)
      · exact Or.inl rfl
      · by_cases he : k = k0
        · exact Or.inl he
        · exact Or.inr ⟨ih.mpr hk, by simp [he]⟩

/-- First-occurrence dedup has no duplicates. -/
theorem nodup_dedupFO {κ : Type} [DecidableEq κ] (l : List κ) : (dedupFO l).Nodup := by
  induction l with
  | nil => exact List.nodup_nil
  | cons k0 ks ih =>
    refine List.nodup_cons.mpr ⟨?_, ih.filter _⟩
    intro hmem
    rcases List.mem_filter.mp hmem with ⟨_, hne⟩
    simp at hne

/-- A filter and its complement partition the length of a list. -/
theorem filter_length_partition {α : Type} (p : α → Bool) (l : List α) :
    (l.filter p).length + (l.filter (fun a => !(p a))).length = l.length := by
  induction l with
  | nil => rfl
  | cons a t ih => cases h : p a <;> simp [List.filter_cons, h] <;> omega

/-- Removing the elements of one key does not change the counts of the other
keys. -/
theorem keyCount_filter_ne {α κ : Type} [DecidableEq κ] (f : α → κ) (l : List α) (k k0 : κ)
    (h : k ≠ k0) :
    keyCount f (l.filter (fun a => !(decide (f a = k0)))) k = keyCount f l k := by
  unfold keyCount
  rw [List.filter_filter]
  congr 1
  apply List.filter_congr
  intro a _
  by_cases hf : f a = k
  · simp [hf, h]
  · simp [hf]

/-- Summing per-key counts over a duplicate-free covering key list gives the
length of the list. -/
theorem keyCount_partition {α κ : Type} [DecidableEq κ] (f : α → κ) :
    ∀ (ks : List κ) (l : List α), ks.Nodup → (∀ a ∈ l, f a ∈ ks) →
      (ks.map (keyCount f l)).sum = l.length := by
  intro ks
  induction ks with
  | nil =>
    intro l _ hcov
    cases l with
    | nil => rfl
    | cons a t => exact absurd (hcov a (List.mem_cons_self a t)) (List.not_mem_nil _)
  | cons k0 ks ih =>
    intro l hnd hcov
    obtain ⟨hk0, hnd2⟩ := List.nodup_cons.mp hnd
    have hmap : ks.map (keyCount f l)
        = ks.map (keyCount f (l.filter (fun a => !(decide (f a = k0))))) := by
      apply List.map_congr_left
      intro k hk
      exact (keyCount_filter_ne f l k k0 (fun he => hk0 (he ▸ hk))).symm
    have hcov2 : ∀ a ∈ l.filter (fun a => !(decide (f a = k0))), f a ∈ ks := by
      intro a ha
      obtain ⟨hal, hba⟩ := List.mem_filter.mp ha
      rcases List.mem_cons.mp (hcov a hal) with h | h
      · simp [h] at hba
      · exact h
    have hsum := ih (l.filter (fun a => !(decide (f a = k0)))) hnd2 hcov2
    have hpart := filter_length_partition (fun a => decide (f a = k0)) l
    simp only [List.map_cons, List.sum_cons, hmap, hsum]
    unfold keyCount
    omega

/-- The counts of a group-by sum to the length of the grouped list. -/
theorem sum_groupCounts {α κ : Type} [DecidableEq κ] (f : α → κ) (l : List α) :
    ((groupCounts f l).map Prod.snd).sum = l.length := by
  have h1 : (groupCounts f l).map Prod.snd = (distinctKeys f l).map (keyCount f l) := by
    simp [groupCounts, List.map_map]
  rw [h1]
  apply keyCount_partition
  · exact nodup_dedupFO _
  · intro a ha
    exact (mem_dedupFO _ _).mpr (List.mem_map_of_mem f ha)

/-- The group keys of a group-by are its distinct keys. -/
theorem map_fst_groupCounts {α κ : Type} [DecidableEq κ] (f : α → κ) (l : List α) :
    (groupCounts f l).map Prod.fst = distinctKeys f l := by
  simp only [groupCounts, List.map_map]
  exact List.map_id' _

/-- Insertion sort by a total, transitive relation is pairwise sorted. -/
theorem pairwise_insertionSort_of {α : Type} (r : α → α → Prop) [DecidableRel r]
    (htot : ∀ a b, r a b ∨ r b a) (htrans : ∀ a b c, r a b → r b c → r a c)
    (l : List α) : (List.insertionSort r l).Pairwise r := by
  haveI : IsTotal α r := ⟨htot⟩
  haveI : IsTrans α r := ⟨htrans⟩
  exact List.sorted_insertionSort r l

/-- Flushing batches loses and reorders nothing: their concatenation is the
pending buffer followed by the remaining input. -/
theorem flatten_batches (B : Nat) :
    ∀ (l buf : List Trip), (batches B buf l).flatten = buf ++ l := by
  intro l
  induction l with
  | nil =>
    intro buf
    by_cases h : buf.isEmpty
    · simp [batches, h, List.isEmpty_iff.mp h]
    · simp [batches, h]
  | cons t ts ih =>
    intro buf
    simp only [batches]
    by_cases h : buf.length + 1 = B
    · simp [h, ih]
    · simp [h, ih]

/-- Every flushed batch is nonempty and no longer than the batch size. -/
theorem batches_bounded (B : Nat) :
    ∀ (l buf : List Trip), buf.length < B →
      ∀ b ∈ batches B buf l, b ≠ [] ∧ b.length ≤ B := by
  intro l
  induction l with
  | nil =>
    intro buf hlt b hb
    by_cases h : buf.isEmpty
    · simp [batches, h] at hb
    · simp [batches, h] at hb
      subst hb
      exact ⟨fun he => h (by simp [he]), le_of_lt hlt⟩
  | cons t ts ih =>
    intro buf hlt b hb
    simp only [batches] at hb
    by_cases h : (buf ++ [t]).length = B
    · rw [if_pos h] at hb
      rcases List.mem_cons.mp hb with rfl | hb2
      · exact ⟨by simp, le_of_eq h⟩
      · exact ih [] (by simp; omega) b hb2
    · rw [if_neg h] at hb
      have hle : (buf ++ [t]).length ≤ B := by simp at hlt ⊢; omega
      exact ih (buf ++ [t]) (lt_of_le_of_ne hle h) b hb

/-- Casting a sum of second components to Int commutes with summation. -/
theorem sum_intCast_snd (l : List (Int × Nat)) :
    (l.map (fun p => ((p.2 : Nat) : Int))).sum = ((l.map Prod.snd).sum : Int) := by
  induction l with
  | nil => rfl
  | cons p t ih => simp [ih]

/-- Replaying increments adds the number of matching zone increments to a
zone bucket. -/
theorem runOps_zone (c z : String) :
    ∀ (ops : List CounterOp) (st : CounterState),
      (runOps st ops).trips_by_zone (c, z) =
        st.trips_by_zone (c, z) + (ops.filter (zoneHit c z)).length := by
  intro ops
  induction ops with
  | nil => intro st; simp [runOps]
  | cons o os ih =>
    intro st
    have hstep : runOps st (o :: os) = runOps (applyOp st o) os := rfl
    rw [hstep, ih]
    cases o with
    | hourOp c2 d h => simp [applyOp, zoneHit, List.filter_cons]
    | zoneOp c2 z2 =>
      by_cases hm : c2 = c ∧ z2 = z
      · obtain ⟨rfl, rfl⟩ := hm
        simp [applyOp, zoneHit, List.filter_cons]
        omega
      · have hne : ¬((c, z) = (c2, z2)) := by
          intro he
          injection he with hc hz
          exact hm ⟨hc.symm, hz.symm⟩
        simp [applyOp, zoneHit, List.filter_cons, hm, hne]

/-- The zone increments of a run hit bucket (c, z) once per trip with that
city and start zone. -/
theorem zoneHits_counterOps (c z : String) :
    ∀ trips : List Trip,
      ((counterOps trips).filter (zoneHit c z)).length =
        (trips.filter (fun t => decide (t.city = c ∧ t.zone_start = z))).length := by
  intro trips
  induction trips with
  | nil => rfl
  | cons t ts ih =>
    simp only [counterOps, List.filter_cons, zoneHit]
    by_cases hm : t.city = c ∧ t.zone_start = z
    · simp [hm, ih]
    · simp [hm, ih]

/-- Per-run increment statistics: two ops per trip, one per table. -/
theorem counterOps_stats : ∀ trips : List Trip,
    (counterOps trips).length = 2 * trips.length
  ∧ ((counterOps trips).filter CounterOp.isHour).length = trips.length
  ∧ ((counterOps trips).filter CounterOp.isZone).length = trips.length := by
  intro trips
  induction trips with
  | nil => exact ⟨rfl, rfl, rfl⟩
  | cons t ts ih =>
    obtain ⟨h1, h2, h3⟩ := ih
    refine ⟨?_, ?_, ?_⟩ <;>
      simp [counterOps, List.filter_cons, CounterOp.isHour, CounterOp.isZone, h1, h2, h3] <;>
      omega

/-- The top-zones artifact of a nonempty record set is nonempty. -/
theorem zones_list_ne_nil (t0 : Trip) (ts : List Trip) : zones_list (t0 :: ts) ≠ [] := by
  unfold zones_list analytics_top_zones
  intro h
  have hlen := congrArg List.length h
  rw [List.length_map, (List.perm_insertionSort countDescZ _).length_eq] at hlen
  simp [groupCounts, distinctKeys, dedupFO] at hlen

/-- The trip_count field of a serialized zone row. -/
theorem rowCount_zoneRow (p : String × Nat) : rowCountVal (zoneRow p) = (p.2 : Int) := rfl

/-- The trip_count field of a serialized daily row. -/
theorem rowCount_dailyRow (p : Int × Nat) : rowCountVal (dailyRow p) = (p.2 : Int) := rfl

/-- Serialized rows of a fixed shape all have the same field-name list. -/
theorem map_rowKeys_ser {β : Type} (ser : β → Row) (ks : List String)
    (h : ∀ b, rowKeys (ser b) = ks) (l : List β) :
    (l.map ser).map rowKeys = List.replicate (l.map ser).length ks := by
  rw [List.map_map]
  have h2 : (rowKeys ∘ ser) = fun _ => ks := funext fun b => h b
  rw [h2, List.length_map]
  exact map_const_replicate l ks

/-!
The claims.
-/

/-- C1: for the daily and hourly aggregate families, when the artifact is
present (readable and nonempty) and no city filter is supplied, the endpoint
returns the artifact content verbatim; when a (truthy) city filter is
supplied — a dimension the artifact does not carry — the artifact is ignored
and the filtered aggregate is computed live from the Record Store by the
Mongo pipeline, never by filtering the artifact post hoc. -/
theorem c1_daily_hourly_resolution (db : List Trip) (r : Row) (rs : List Row)
    (c : String) (hc : c ≠ "") :
    daily_stats db (FileState.readable (r :: rs)) none = Except.ok (r :: rs)
  ∧ daily_stats db (FileState.readable (r :: rs)) (some c)
      = Except.ok (liveDailyRows db (some c))
  ∧ hourly_stats db (FileState.readable (r :: rs)) none = Except.ok (r :: rs)
  ∧ hourly_stats db (FileState.readable (r :: rs)) (some c)
      = Except.ok (liveHourlyRows db (some c)) := by
  refine ⟨?_, ?_, ?_, ?_⟩ <;>
    simp [daily_stats, hourly_stats, load_spark_result, cityTruthy, hc]

/-- Witness for C1: the filtered branch at a concrete store, artifact and
city. -/
theorem c1_daily_hourly_resolution_witness :
    ("Paris" : String) ≠ ""
  ∧ daily_stats [] (FileState.readable [c1row]) (some "Paris")
      = Except.ok (liveDailyRows [] (some "Paris")) :=
  ⟨by decide, (c1_daily_hourly_resolution [] c1row [] "Paris" (by decide)).2.1⟩

/-- C2: for every record set, the live-fallback computation of each family
produces rows with exactly the artifact schema's field names — daily
{date, trip_count}, hourly {hour, trip_count}, cities
{city, avg_distance, trip_count}, top_zones {zone, trip_count}, weekday
{city, day_of_week, trip_count} — identical to the rows of the corresponding
batch artifact for the same data. -/
theorem c2_fallback_schema (db : List Trip) (city : Option String) :
    (liveDailyRows db city).map rowKeys
      = List.replicate (liveDailyRows db city).length ["date", "trip_count"]
  ∧ (daily_list db).map rowKeys
      = List.replicate (daily_list db).length ["date", "trip_count"]
  ∧ (liveHourlyRows db city).map rowKeys
      = List.replicate (liveHourlyRows db city).length ["hour", "trip_count"]
  ∧ (rush_list db).map rowKeys
      = List.replicate (rush_list db).length ["hour", "trip_count"]
  ∧ (liveCitiesRows db).map rowKeys
      = List.replicate (liveCitiesRows db).length ["city", "avg_distance", "trip_count"]
  ∧ (avg_list db).map rowKeys
      = List.replicate (avg_list db).length ["city", "avg_distance", "trip_count"]
  ∧ (∀ k : Nat, ∃ rows : List Row,
        liveTopZonesRows db ((k : Int) + 1) = Except.ok rows
      ∧ rows.map rowKeys = List.replicate rows.length ["zone", "trip_count"])
  ∧ (zones_list db).map rowKeys
      = List.replicate (zones_list db).length ["zone", "trip_count"]
  ∧ (liveWeekdayRows db).map rowKeys
      = List.replicate (liveWeekdayRows db).length ["city", "day_of_week", "trip_count"]
  ∧ (day_list db).map rowKeys
      = List.replicate (day_list db).length ["city", "day_of_week", "trip_count"] := by
  refine ⟨map_rowKeys_ser dailyRow _ (fun p => rfl) _,
          map_rowKeys_ser dailyRow _ (fun p => rfl) _,
          map_rowKeys_ser rushRow _ (fun p => rfl) _,
          map_rowKeys_ser rushRow _ (fun p => rfl) _,
          map_rowKeys_ser cityRow _ (fun p => rfl) _,
          map_rowKeys_ser cityRow _ (fun p => rfl) _,
          ?_,
          map_rowKeys_ser zoneRow _ (fun p => rfl) _,
          map_rowKeys_ser dayRow _ (fun p => rfl) _,
          map_rowKeys_ser dayRow _ (fun p => rfl) _⟩
  intro k
  refine ⟨((liveTopZonesSorted db).take (k + 1)).map zoneRow, ?_, ?_⟩
  · have hpos : (0 : Int) < (k : Int) + 1 := by omega
    simp [liveTopZonesRows, mongoLimit, hpos, Except.map, List.map_take]
  · exact map_rowKeys_ser zoneRow _ (fun p => rfl) _

/-- C5 counterexample: a corrupt (malformed) daily artifact file makes the
endpoint raise instead of falling back to live aggregation. -/
theorem c5_counterexample :
    daily_stats [] FileState.corrupt none = Except.error ApiError.artifactCorrupt
  ∧ daily_stats [] FileState.corrupt none ≠ Except.ok (liveDailyRows [] none) :=
  ⟨rfl, fun h => Except.noConfusion h⟩

/-- C5 amended: an absent artifact file triggers the live fallback on every
endpoint, but a malformed artifact file makes json.load raise —
load_spark_result has no exception handler — so the error propagates out of
every query endpoint instead of being treated as a missing artifact. -/
theorem c5_amended (db : List Trip) (city : Option String) (limit : Int) :
    daily_stats db FileState.corrupt city = Except.error ApiError.artifactCorrupt
  ∧ hourly_stats db FileState.corrupt city = Except.error ApiError.artifactCorrupt
  ∧ cities_stats db FileState.corrupt = Except.error ApiError.artifactCorrupt
  ∧ top_zones db FileState.corrupt limit = Except.error ApiError.artifactCorrupt
  ∧ weekday_stats db FileState.corrupt = Except.error ApiError.artifactCorrupt
  ∧ daily_stats db FileState.absent city = Except.ok (liveDailyRows db city)
  ∧ hourly_stats db FileState.absent city = Except.ok (liveHourlyRows db city)
  ∧ cities_stats db FileState.absent = Except.ok (liveCitiesRows db)
  ∧ top_zones db FileState.absent limit = liveTopZonesRows db limit
  ∧ weekday_stats db FileState.absent = Except.ok (liveWeekdayRows db) :=
  ⟨rfl, rfl, rfl, rfl, rfl, rfl, rfl, rfl, rfl, rfl⟩

/-- C10: the limit parameter of /top-zones has no lower-bound validation: a
negative limit is accepted, and on the artifact path Python slice semantics
return all rows except the last |limit| (here shown for every nonempty
artifact and every negative limit -(k+1)), which can exceed |limit| rows —
with the five-row artifact, limit = -1 yields 4 rows. -/
theorem c10_negative_limit (db : List Trip) (r : Row) (rs : List Row) (k : Nat) :
    top_zones db (FileState.readable (r :: rs)) (-((k : Int) + 1))
      = Except.ok ((r :: rs).take ((r :: rs).length - (k + 1)))
  ∧ top_zones [] (FileState.readable c10rows) (-1) = Except.ok (c10rows.take 4)
  ∧ (c10rows.take 4).length = 4 := by
  refine ⟨?_, rfl, rfl⟩
  have hneg : ¬((0 : Int) ≤ -((k : Int) + 1)) := by omega
  have hstep : top_zones db (FileState.readable (r :: rs)) (-((k : Int) + 1))
      = Except.ok (pySlice (r :: rs) (-((k : Int) + 1))) := by
    simp [top_zones, load_spark_result]
  have htn : ((-(-((k : Int) + 1))).toNat) = k + 1 := by
    rw [neg_neg]
    exact Int.toNat_ofNat_add_one
  rw [hstep]
  unfold pySlice
  rw [if_neg hneg, htn]

/-- The cities aggregate of the counterexample record set, evaluated. -/
theorem analytics_avg_dist_c3db :
    analytics_avg_dist c3db = [("A", (10 : ℚ), 1), ("B", (1 : ℚ), 2)] := by
  have hfA : c3db.filter (fun t => decide (t.city = "A"))
      = [sampleTrip "A" "Z" "Monday" 10] := by decide
  have hfB : c3db.filter (fun t => decide (t.city = "B"))
      = [sampleTrip "B" "Z" "Monday" 1, sampleTrip "B" "Z" "Monday" 1] := by decide
  have hmA : meanDist c3db "A" = 10 := by
    unfold meanDist
    rw [hfA]
    norm_num [sampleTrip]
  have hmB : meanDist c3db "B" = 1 := by
    unfold meanDist
    rw [hfB]
    norm_num [sampleTrip]
  have hA : sparkCityRow c3db "A" = ("A", (10 : ℚ), 1) := by
    unfold sparkCityRow keyCount
    rw [hfA, hmA]
    norm_num [sparkRound2]
  have hB : sparkCityRow c3db "B" = ("B", (1 : ℚ), 2) := by
    unfold sparkCityRow keyCount
    rw [hfB, hmB]
    norm_num [sparkRound2]
  have hkeys : distinctKeys Trip.city c3db = ["A", "B"] := by decide
  unfold analytics_avg_dist
  rw [hkeys]
  simp only [List.map_cons, List.map_nil, hA, hB]
  have hr : avgDesc ("A", (10 : ℚ), 1) ("B", (1 : ℚ), 2) := by
    norm_num [avgDesc]
  simp [List.insertionSort, List.orderedInsert, hr]

/-- The avg_distance.json rows of the counterexample record set. -/
theorem avg_list_c3db :
    avg_list c3db =
      [[("city", Value.s "A"), ("avg_distance", Value.q 10), ("trip_count", Value.i 1)],
       [("city", Value.s "B"), ("avg_distance", Value.q 1), ("trip_count", Value.i 2)]] := by
  unfold avg_list
  rw [analytics_avg_dist_c3db]
  rfl

/-- C3 counterexample: with city A holding one 10 km trip and city B two
1 km trips, the artifact-backed /stats/cities response lists A (count 1)
before B (count 2), because analytics.py sorts by avg_distance descending —
the rows are NOT sorted descending by trip_count as the claim states. -/
theorem c3_counterexample :
    cities_stats c3db (FileState.readable (avg_list c3db)) = Except.ok (avg_list c3db)
  ∧ avg_list c3db =
      [[("city", Value.s "A"), ("avg_distance", Value.q 10), ("trip_count", Value.i 1)],
       [("city", Value.s "B"), ("avg_distance", Value.q 1), ("trip_count", Value.i 2)]]
  ∧ ¬ List.Pairwise rowCountGe (avg_list c3db) := by
  refine ⟨?_, avg_list_c3db, ?_⟩
  · rw [avg_list_c3db]
    rfl
  · rw [avg_list_c3db]
    decide

/-- C3 amended: both paths of /stats/cities group by city, compute the
2-dp-rounded mean of distance_km (HALF_UP on the Spark path, half-to-even on
the Mongo path) and count trips; but the batch-artifact path sorts the rows
descending by avg_distance (analytics.py orderBy), while only the
live-fallback path sorts descending by trip_count. -/
theorem c3_amended (db : List Trip) :
    List.Pairwise avgDesc (analytics_avg_dist db)
  ∧ List.Pairwise countDescQ (liveCitiesAgg db)
  ∧ (∀ p ∈ analytics_avg_dist db,
        p.2.2 = keyCount Trip.city db p.1
      ∧ p.2.1 = sparkRound2 (meanDist db p.1)
      ∧ p.1 ∈ db.map Trip.city)
  ∧ (∀ p ∈ liveCitiesAgg db,
        p.2.2 = keyCount Trip.city db p.1
      ∧ p.2.1 = mongoRound2 (meanDist db p.1)
      ∧ p.1 ∈ db.map Trip.city)
  ∧ ((analytics_avg_dist db).map Prod.fst).Nodup
  ∧ (∀ t ∈ db, t.city ∈ (analytics_avg_dist db).map Prod.fst) := by
  have hfst : ((distinctKeys Trip.city db).map (sparkCityRow db)).map Prod.fst
      = distinctKeys Trip.city db := by
    rw [List.map_map]
    exact List.map_id' _
  have hperm := (List.perm_insertionSort avgDesc
    ((distinctKeys Trip.city db).map (sparkCityRow db))).map Prod.fst
  refine ⟨?_, ?_, ?_, ?_, ?_, ?_⟩
  · exact pairwise_insertionSort_of avgDesc (fun a b => le_total b.2.1 a.2.1)
      (fun a b c hab hbc => le_trans hbc hab) _
  · exact pairwise_insertionSort_of countDescQ (fun a b => Nat.le_total b.2.2 a.2.2)
      (fun a b c hab hbc => Nat.le_trans hbc hab) _
  · intro p hp
    have hp2 : p ∈ (distinctKeys Trip.city db).map (sparkCityRow db) :=
      (List.mem_insertionSort avgDesc).mp hp
    obtain ⟨c, hc, rfl⟩ := List.mem_map.mp hp2
    exact ⟨rfl, rfl, (mem_dedupFO _ _).mp hc⟩
  · intro p hp
    have hp2 : p ∈ (distinctKeys Trip.city db).map (mongoCityRow db) :=
      (List.mem_insertionSort countDescQ).mp hp
    obtain ⟨c, hc, rfl⟩ := List.mem_map.mp hp2
    exact ⟨rfl, rfl, (mem_dedupFO _ _).mp hc⟩
  · unfold analytics_avg_dist
    refine (hperm.nodup_iff).mpr ?_
    rw [hfst]
    exact nodup_dedupFO _
  · intro t ht
    unfold analytics_avg_dist
    refine (hperm.mem_iff).mpr ?_
    rw [hfst]
    exact (mem_dedupFO _ _).mpr (List.mem_map_of_mem Trip.city ht)

/-- Witness for C3 amended at the concrete record set of the
counterexample. -/
theorem c3_amended_witness :
    List.Pairwise avgDesc (analytics_avg_dist c3db)
  ∧ (("A", (10 : ℚ), 1) : String × ℚ × Nat) ∈ analytics_avg_dist c3db
  ∧ ((("A", (10 : ℚ), 1) : String × ℚ × Nat).2.2 = keyCount Trip.city c3db "A") :=
  ⟨(c3_amended c3db).1,
   by rw [analytics_avg_dist_c3db]; exact List.mem_cons_self _ _,
   ((c3_amended c3db).2.2.1 ("A", (10 : ℚ), 1)
     (by rw [analytics_avg_dist_c3db]; exact List.mem_cons_self _ _)).1⟩

/-- C4 counterexample: with one trip in city A and one in city B, the
artifact-backed /stats/weekday response lists B before A — the by_day rows
are sorted city DESCENDING (ascending=False applies to both orderBy
columns), not city ascending as the claim states. -/
theorem c4_counterexample :
    weekday_stats c4db (FileState.readable (day_list c4db)) = Except.ok (day_list c4db)
  ∧ day_list c4db =
      [[("city", Value.s "B"), ("day_of_week", Value.s "Monday"), ("trip_count", Value.i 1)],
       [("city", Value.s "A"), ("day_of_week", Value.s "Monday"), ("trip_count", Value.i 1)]]
  ∧ ¬ List.Pairwise rowCityAsc (day_list c4db) :=
  ⟨rfl, by decide, by decide⟩

/-- C4 amended: both paths of /stats/weekday group by (city, day_of_week)
and count — the two paths return the same rows up to order — but the
batch-artifact path sorts by city descending then trip_count descending,
and the live-fallback pipeline applies no sort at all (it has no $sort
stage), returning the groups in group order. -/
theorem c4_amended (db : List Trip) :
    List.Pairwise cityDayDesc (analytics_by_day db)
  ∧ List.Perm (analytics_by_day db) (liveWeekdayAgg db)
  ∧ (∀ p ∈ liveWeekdayAgg db, p.2 = keyCount byDayKey db p.1 ∧ p.1 ∈ db.map byDayKey)
  ∧ ((liveWeekdayAgg db).map Prod.fst).Nodup
  ∧ (∀ t ∈ db, byDayKey t ∈ (liveWeekdayAgg db).map Prod.fst) := by
  refine ⟨?_, ?_, ?_, ?_, ?_⟩
  · exact pairwise_insertionSort_of cityDayDesc cityDayDesc_total cityDayDesc_trans _
  · exact List.perm_insertionSort cityDayDesc _
  · intro p hp
    obtain ⟨kk, hk, rfl⟩ := List.mem_map.mp hp
    exact ⟨rfl, (mem_dedupFO _ _).mp hk⟩
  · unfold liveWeekdayAgg
    rw [map_fst_groupCounts]
    exact nodup_dedupFO _
  · intro t ht
    unfold liveWeekdayAgg
    rw [map_fst_groupCounts]
    exact (mem_dedupFO _ _).mpr (List.mem_map_of_mem byDayKey ht)

/-- Witness for C4 amended at the concrete record set of the
counterexample. -/
theorem c4_amended_witness :
    List.Pairwise cityDayDesc (analytics_by_day c4db)
  ∧ ((("A", "Monday"), 1) : (String × String) × Nat) ∈ liveWeekdayAgg c4db
  ∧ ((1 : Nat) = keyCount byDayKey c4db ("A", "Monday")) :=
  ⟨(c4_amended c4db).1, by decide,
   ((c4_amended c4db).2.2.1 (("A", "Monday"), 1) (by decide)).1⟩

/-- Serializing a count-descending zone ranking preserves descending
trip_count on the rows. -/
theorem pairwise_rowCountGe_zones (l : List (String × Nat))
    (h : List.Pairwise countDescZ l) :
    List.Pairwise rowCountGe (l.map zoneRow) := by
  rw [List.pairwise_map]
  refine h.imp ?_
  intro a b hab
  show rowCountVal (zoneRow b) ≤ rowCountVal (zoneRow a)
  rw [rowCount_zoneRow, rowCount_zoneRow]
  exact Int.ofNat_le.mpr hab

/-- The live top-zones ranking is count-descending. -/
theorem pairwise_liveTopZonesSorted (db : List Trip) :
    List.Pairwise countDescZ (liveTopZonesSorted db) :=
  pairwise_insertionSort_of countDescZ (fun a b => Nat.le_total b.2 a.2)
    (fun _ _ _ hab hbc => Nat.le_trans hbc hab) _

/-- C6 counterexample: with two zones tied at one trip each and Zone B
occurring first, the top-zones rows keep Zone B before Zone A — no stable
tie-break by zone name is applied — and on the live path a limit of 0 (a
non-negative value) is rejected by the store's $limit stage rather than
producing rows. -/
theorem c6_counterexample :
    top_zones [] (FileState.readable (zones_list c6db)) 10
      = Except.ok
          [[("zone", Value.s "Zone B"), ("trip_count", Value.i 1)],
           [("zone", Value.s "Zone A"), ("trip_count", Value.i 1)]]
  ∧ ¬ List.Pairwise rowTieOrder
        [[("zone", Value.s "Zone B"), ("trip_count", Value.i 1)],
         [("zone", Value.s "Zone A"), ("trip_count", Value.i 1)]]
  ∧ top_zones [] FileState.absent 0 = Except.error ApiError.mongoBadLimit :=
  ⟨rfl, by decide, rfl⟩

/-- C6 amended: /top-zones returns at most limit rows with trip_count
descending on both paths — the artifact path truncates the (sorted) artifact
after loading, the live path applies Mongo $limit to the sorted ranking —
but ties are in unspecified order (the code sorts only by trip_count, with
no tie-break by zone name), and the live path requires limit ≥ 1 because
Mongo $limit rejects non-positive values. -/
theorem c6_amended (t0 : Trip) (ts : List Trip) (db : List Trip) (k : Nat) :
    top_zones db (FileState.readable (zones_list (t0 :: ts))) (k : Int)
      = Except.ok ((zones_list (t0 :: ts)).take k)
  ∧ ((zones_list (t0 :: ts)).take k).length ≤ k
  ∧ List.Pairwise rowCountGe ((zones_list (t0 :: ts)).take k)
  ∧ (∃ rows : List Row, top_zones db FileState.absent ((k : Int) + 1) = Except.ok rows
      ∧ rows.length ≤ k + 1 ∧ List.Pairwise rowCountGe rows) := by
  have hsorted : List.Pairwise rowCountGe (zones_list (t0 :: ts)) := by
    unfold zones_list analytics_top_zones
    exact pairwise_rowCountGe_zones _ (pairwise_insertionSort_of countDescZ
      (fun a b => Nat.le_total b.2 a.2) (fun a b c hab hbc => Nat.le_trans hbc hab) _)
  refine ⟨?_, List.length_take_le k _, List.Pairwise.sublist (List.take_sublist k _) hsorted, ?_⟩
  · have hne := zones_list_ne_nil t0 ts
    simp [top_zones, load_spark_result, hne, pySlice]
  · refine ⟨((liveTopZonesSorted db).take (k + 1)).map zoneRow, ?_, ?_, ?_⟩
    · have hpos : (0 : Int) < (k : Int) + 1 := by omega
      simp [top_zones, load_spark_result, liveTopZonesRows, mongoLimit, hpos, Except.map]
    · rw [List.length_map]
      exact List.length_take_le _ _
    · exact pairwise_rowCountGe_zones _
        (List.Pairwise.sublist (List.take_sublist (k + 1) _) (pairwise_liveTopZonesSorted db))

/-- C7: the ingestion pipeline writes exactly the N input trips to the
Record Store — the flushed batches concatenate to the input, every flushed
batch is nonempty and at most B long when B ≥ 1 — and the trip_count values
of the daily artifact computed over that store sum to exactly N. -/
theorem c7_round_trip (trips : List Trip) (B : Nat) :
    recordStore B trips = trips
  ∧ ((daily_list (recordStore B trips)).map rowCountVal).sum = (trips.length : Int)
  ∧ (1 ≤ B → ∀ b ∈ batches B [] trips, b ≠ [] ∧ b.length ≤ B) := by
  have hstore : recordStore B trips = trips := by
    unfold recordStore
    simpa using flatten_batches B trips []
  refine ⟨hstore, ?_, ?_⟩
  · rw [hstore]
    have h1 : (daily_list trips).map rowCountVal
        = (analytics_daily trips).map (fun p => ((p.2 : Nat) : Int)) := by
      unfold daily_list
      rw [List.map_map]
      rfl
    rw [h1, sum_intCast_snd]
    have h2 : ((analytics_daily trips).map Prod.snd).sum = trips.length := by
      unfold analytics_daily
      rw [((List.perm_insertionSort fstLe (groupCounts Trip.date trips)).map Prod.snd).sum_eq]
      exact sum_groupCounts Trip.date trips
    rw [h2]
  · intro hB b hb
    exact batches_bounded B trips [] (by simpa using hB) b hb

/-- Witness for C7 at three concrete trips and batch size 2. -/
theorem c7_round_trip_witness :
    recordStore 2 c7trips = c7trips
  ∧ ((daily_list (recordStore 2 c7trips)).map rowCountVal).sum = (c7trips.length : Int)
  ∧ (∀ b ∈ batches 2 [] c7trips, b ≠ [] ∧ b.length ≤ 2) :=
  ⟨(c7_round_trip c7trips 2).1, (c7_round_trip c7trips 2).2.1,
   (c7_round_trip c7trips 2).2.2 (by decide)⟩

/-- C8: every trip persisted by the ingestion pipeline has derived fields
computed from its own timestamp — hour is the local hour (0–23), date the
calendar day, day_of_week the weekday name of that same timestamp — and the
daily artifact, which never recomputes these fields, only carries dates that
are the calendar day of some stored trip's timestamp. -/
theorem c8_derived_fields (now : Int) (events : List GenEvent) (B : Nat) :
    (∀ t ∈ recordStore B (genTrips now events),
        t.hour = localHour t.timestamp
      ∧ t.date = calendarDay t.timestamp
      ∧ t.day_of_week = weekdayName t.timestamp
      ∧ 0 ≤ t.hour ∧ t.hour < 24)
  ∧ (∀ d ∈ (analytics_daily (recordStore B (genTrips now events))).map Prod.fst,
        ∃ t ∈ recordStore B (genTrips now events), d = calendarDay t.timestamp) := by
  have hstore : recordStore B (genTrips now events) = genTrips now events := by
    unfold recordStore
    simpa using flatten_batches B (genTrips now events) []
  have hfields : ∀ t ∈ genTrips now events,
      t.hour = localHour t.timestamp
    ∧ t.date = calendarDay t.timestamp
    ∧ t.day_of_week = weekdayName t.timestamp
    ∧ 0 ≤ t.hour ∧ t.hour < 24 := by
    intro t ht
    obtain ⟨e, he, rfl⟩ := List.mem_map.mp ht
    refine ⟨rfl, rfl, rfl, ?_, ?_⟩
    · exact Int.emod_nonneg _ (by decide)
    · exact Int.emod_lt_of_pos _ (by decide)
  constructor
  · rw [hstore]
    exact hfields
  · rw [hstore]
    intro d hd
    have hperm := (List.perm_insertionSort fstLe
      (groupCounts Trip.date (genTrips now events))).map Prod.fst
    have hd2 : d ∈ (groupCounts Trip.date (genTrips now events)).map Prod.fst := by
      refine hperm.mem_iff.mp ?_
      simpa [analytics_daily] using hd
    rw [map_fst_groupCounts] at hd2
    have hd3 : d ∈ (genTrips now events).map Trip.date := (mem_dedupFO _ _).mp hd2
    obtain ⟨t, ht, hdt⟩ := List.mem_map.mp hd3
    refine ⟨t, ht, ?_⟩
    rw [← hdt]
    exact (hfields t ht).2.1

/-- Witness for C8 at a concrete generation event. -/
theorem c8_derived_fields_witness :
    mkTrip 1000000 c8event ∈ recordStore 2 (genTrips 1000000 [c8event])
  ∧ (mkTrip 1000000 c8event).hour = localHour (mkTrip 1000000 c8event).timestamp
  ∧ 0 ≤ (mkTrip 1000000 c8event).hour ∧ (mkTrip 1000000 c8event).hour < 24 :=
  ⟨by decide,
   ((c8_derived_fields 1000000 [c8event] 2).1 _ (by decide)).1,
   ((c8_derived_fields 1000000 [c8event] 2).1 _ (by decide)).2.2.2.1,
   ((c8_derived_fields 1000000 [c8event] 2).1 _ (by decide)).2.2.2.2⟩

/-- C9: every run issues exactly two counter increments per ingested trip —
one on the (city, date, hour) bucket, one on the (city, zone_start) bucket —
and after ingesting K trips all having city X and zone_start Y from the
truncated (empty) counter state, the (X, Y) zone bucket equals exactly K. -/
theorem c9_counter_increments (trips : List Trip) (X Y : String) :
    (counterOps trips).length = 2 * trips.length
  ∧ ((counterOps trips).filter CounterOp.isHour).length = trips.length
  ∧ ((counterOps trips).filter CounterOp.isZone).length = trips.length
  ∧ ((∀ t ∈ trips, t.city = X ∧ t.zone_start = Y) →
      (runOps emptyCounters (counterOps trips)).trips_by_zone (X, Y) = trips.length) := by
  obtain ⟨h1, h2, h3⟩ := counterOps_stats trips
  refine ⟨h1, h2, h3, ?_⟩
  intro hall
  rw [runOps_zone X Y (counterOps trips) emptyCounters, zoneHits_counterOps]
  have hfilter : trips.filter (fun t => decide (t.city = X ∧ t.zone_start = Y)) = trips :=
    List.filter_eq_self.mpr (fun t ht => by simp [hall t ht])
  rw [hfilter]
  simp [emptyCounters]

/-- Witness for C9 at two concrete trips sharing city and start zone. -/
theorem c9_counter_increments_witness :
    (counterOps c9trips).length = 4
  ∧ (runOps emptyCounters (counterOps c9trips)).trips_by_zone ("Paris", "Zone A") = 2 :=
  ⟨by decide, by
    have h := (c9_counter_increments c9trips "Paris" "Zone A").2.2.2 (by decide)
    simpa [c9trips] using h⟩

end UTP

